import Mathlib

/-!
Verification of the per-guild audio pipeline of the TTS bot
(`voice_manager.py`, `autocorrector.py`, `tts_handler.py`).

Two operational models are developed, both transcribed from the source:

* `RoomA` — registry-level state of `VoiceManager` for one guild:
  the guild's voice connection, its `audio_queue` / `playing` dict entries,
  the number of alive `_process_audio_queue` tasks, and the
  `bot.voice_text_channels` binding.  The operations `join_channel`,
  `play_audio` and `leave_channel` are transcribed statement by statement.
  A worker task created by `asyncio.create_task` stays alive until it next
  observes the registry (it is suspended inside `asyncio.wait_for` for up to
  300 time-units), so worker exit is a separate scheduler step `workerExit`.

* `WS` — the `_process_audio_queue` worker loop of one guild as a timed
  small-step machine: one `tick` advances the suspended worker by one
  time-unit or performs the next instantaneous action; `enq`/`setConn` are
  environment events (an enqueue by `play_audio`, the voice connection
  going up or down).
-/

namespace TTS

/-! ## Model A: registry-level state of `VoiceManager` for one guild -/

/-- Per-guild view of the `VoiceManager` state.
`conn` is the channel id `guild.voice_client` is connected to (`none` when
there is no connected voice client); `queue` is the guild's entry in
`self.audio_queue` (jobs abstracted to ids); `playingFlag` is the guild's
entry in `self.playing`; `workers` counts alive `_process_audio_queue`
tasks for the guild; `boundText` is the guild's entry in
`bot.voice_text_channels`. -/
structure RoomA where
  conn : Option Nat
  queue : Option (List Nat)
  playingFlag : Option Bool
  workers : Nat
  boundText : Option Nat
deriving Repr, DecidableEq

def initRoomA : RoomA :=
  { conn := none, queue := none, playingFlag := none, workers := 0, boundText := none }

/-- Transcribes `VoiceManager.join_channel` (voice_manager.py:24-58) for one guild.
`connectOk` (resp. `moveOk`) says whether `channel.connect()`
(resp. `voice_client.move_to`) succeeds; on an exception the handler
returns `None` and the state is unchanged.  The result is `some ()` when a
voice client is returned.  Case 1: connected to the same channel — return
it.  Case 2: connected to another channel — move.  Case 3: not connected —
connect, initialise `audio_queue`/`playing` if absent, and spawn a worker
task unless `self.playing[guild.id]` is `True`. -/
def join_channel (ch : Nat) (connectOk moveOk : Bool) (s : RoomA) :
    RoomA × Option Unit :=
  match s.conn with
  | some c =>
    if c = ch then (s, some ())
    else if moveOk then ({ s with conn := some ch }, some ()) else (s, none)
  | none =>
    if connectOk then
      let s1 : RoomA := { s with conn := some ch }
      let s2 : RoomA :=
        if s1.queue.isNone then
          { s1 with queue := some [], playingFlag := some false }
        else s1
      let s3 : RoomA :=
        if s2.playingFlag = some true then s2
        else { s2 with workers := s2.workers + 1 }
      (s3, some ())
    else (s, none)

/-- The tail of `VoiceManager.play_audio` once the bot is connected to the
target channel: initialise the queue entry (spawning a worker task) if it
is absent, then `put` the job at the back of the queue. -/
def enqueue_job (job : Nat) (s : RoomA) : RoomA :=
  let s1 : RoomA :=
    if s.queue.isNone then
      { s with queue := some [], playingFlag := some false,
               workers := s.workers + 1 }
    else s
  { s1 with queue := some (s1.queue.getD [] ++ [job]) }

/-- Transcribes `VoiceManager.play_audio` (voice_manager.py:89-123) for one guild.
If the guild has no connected voice client it connects to the job's
channel; if connected to a different channel it moves there; an exception
in either step is caught and `False` is returned with nothing enqueued.
Then the queue entry is created if absent (spawning a worker task) and the
job is put at the back of the queue, returning `True`. -/
def play_audio (ch job : Nat) (connectOk moveOk : Bool) (s : RoomA) :
    RoomA × Bool :=
  match s.conn with
  | none =>
    if connectOk then (enqueue_job job { s with conn := some ch }, true)
    else (s, false)
  | some c =>
    if c = ch then (enqueue_job job s, true)
    else if moveOk then (enqueue_job job { s with conn := some ch }, true)
    else (s, false)

/-- Transcribes `VoiceManager.leave_channel` (voice_manager.py:60-87) for one guild.
Only when a connected voice client exists does it disconnect, drain and
delete the `audio_queue`/`playing` entries, and delete the
`voice_text_channels` binding; otherwise the whole body is skipped and the
call returns normally (no error). -/
def leave_channel (s : RoomA) : RoomA :=
  match s.conn with
  | some _ =>
    let s1 : RoomA := { s with conn := none }
    let s2 : RoomA :=
      if s1.queue.isSome then { s1 with queue := none, playingFlag := none }
      else s1
    { s2 with boundText := none }
  | none => s

/-- A `_process_audio_queue` task returning (its `while` loop ended). -/
def workerExit (s : RoomA) : RoomA := { s with workers := s.workers - 1 }

/-- Transcribes `bot.voice_text_channels[guild.id] = text_channel_id` — the command
layer (bot.py:258-260) stores the binding right after `join_channel`,
whether or not the join succeeded. -/
def bind_text (t : Nat) (s : RoomA) : RoomA := { s with boundText := some t }

/-- Atomic operations on the registry-level state: the `VoiceManager`
entry points plus the two scheduler/command-layer events. -/
inductive OpA
  | join (ch : Nat) (connectOk moveOk : Bool)
  | play (ch job : Nat) (connectOk moveOk : Bool)
  | leave
  | workerExit
  | bindText (t : Nat)
deriving Repr, DecidableEq

def stepA (s : RoomA) : OpA → RoomA
  | OpA.join ch c m => (join_channel ch c m s).1
  | OpA.play ch j c m => (play_audio ch j c m s).1
  | OpA.leave => leave_channel s
  | OpA.workerExit => workerExit s
  | OpA.bindText t => bind_text t s

def runA (ops : List OpA) : RoomA := ops.foldl stepA initRoomA

/-- Invariant maintained by every operation except `leave`:
at most one worker, no worker without a registered queue entry, and no
queue entry without a connection. -/
def InvA (s : RoomA) : Prop :=
  s.workers ≤ 1 ∧ (s.queue = none → s.workers = 0) ∧
    (s.conn = none → s.queue = none)

instance (s : RoomA) : Decidable (InvA s) := by
  unfold InvA; infer_instance

/-! ## Model B: the `_process_audio_queue` worker loop as a timed machine -/

/-- Transcribes `timeout=300` of the `asyncio.wait_for` around `queue.get()`
(voice_manager.py:194). -/
def IDLE_TIMEOUT : Nat := 300

/-- Transcribes `await asyncio.sleep(10)` after the idle timeout (voice_manager.py:201). -/
def GRACE_SLEEP : Nat := 10

/-- Transcribes `await asyncio.sleep(2)` after re-queueing a job because the voice
client is not connected (voice_manager.py:218). -/
def RETRY_BACKOFF : Nat := 2

/-- Where the worker task is suspended. `waiting t` — inside
`wait_for(queue.get(), 300)` having waited `t` units; `grace t` — inside
the `sleep(10)` after a timeout; `backoff t` — inside the `sleep(2)` after
re-queueing; `exited` — the `while` loop has ended. -/
inductive WPhase
  | waiting (t : Nat)
  | grace (t : Nat)
  | backoff (t : Nat)
  | exited
deriving Repr, DecidableEq

/-- Worker-loop view of one guild: `conn` — whether
`guild.voice_client` exists and `is_connected()`; `queuePresent` —
whether `guild_id in self.audio_queue`; `queue` — the queued job ids in
order; `played` — jobs handed to `_play_audio_data` so far, in order
(playback is awaited, so these calls are sequential). -/
structure WS where
  conn : Bool
  queuePresent : Bool
  queue : List Nat
  played : List Nat
  phase : WPhase
deriving Repr, DecidableEq

/-- One time-unit / one resumption of the worker task
(`_process_audio_queue`, voice_manager.py:184-233).
In `waiting`: a queued job makes `queue.get()` return — with a connected
voice client the job is played (appended to `played`), otherwise it is
`put` back at the BACK of the queue and the worker enters the 2-unit
backoff; with an empty queue the wait continues until `IDLE_TIMEOUT`,
then the `TimeoutError` branch runs: queue entry present and empty →
grace sleep, entry absent → the `while` guard fails and the loop exits.
In `grace`: after `GRACE_SLEEP` units, present-and-empty → `break`,
otherwise `continue` re-checks the `while` guard.  In `backoff`: after
`RETRY_BACKOFF` units `continue` re-checks the `while` guard. -/
def wtick (s : WS) : WS :=
  match s.phase with
  | WPhase.exited => s
  | WPhase.waiting t =>
    match s.queue with
    | j :: rest =>
      if s.conn then
        { s with queue := rest, played := s.played ++ [j],
                 phase := WPhase.waiting 0 }
      else
        { s with queue := rest ++ [j], phase := WPhase.backoff 0 }
    | [] =>
      if t < IDLE_TIMEOUT then { s with phase := WPhase.waiting (t + 1) }
      else if s.queuePresent then { s with phase := WPhase.grace 0 }
      else { s with phase := WPhase.exited }
  | WPhase.grace t =>
    if t < GRACE_SLEEP then { s with phase := WPhase.grace (t + 1) }
    else if s.queuePresent && s.queue.isEmpty then
      { s with phase := WPhase.exited }
    else if s.queuePresent then { s with phase := WPhase.waiting 0 }
    else { s with phase := WPhase.exited }
  | WPhase.backoff t =>
    if t < RETRY_BACKOFF then { s with phase := WPhase.backoff (t + 1) }
    else if s.queuePresent then { s with phase := WPhase.waiting 0 }
    else { s with phase := WPhase.exited }

/-- Environment events interleaved with the worker: `tick` resumes the
worker for one step, `enq j` is a `put` by `play_audio`, `setConn b` is
the voice connection going up or down. -/
inductive WEv
  | tick
  | enq (j : Nat)
  | setConn (b : Bool)
deriving Repr, DecidableEq

def stepB (s : WS) : WEv → WS
  | WEv.tick => wtick s
  | WEv.enq j => { s with queue := s.queue ++ [j] }
  | WEv.setConn b => { s with conn := b }

def runB (evs : List WEv) (s : WS) : WS := evs.foldl stepB s

/-- The worker state right after a fresh spawn for a connected guild. -/
def initWS : WS :=
  { conn := true, queuePresent := true, queue := [], played := [],
    phase := WPhase.waiting 0 }

/-- Iterated worker resumptions with no environment event in between. -/
def wticks : Nat → WS → WS
  | 0, s => s
  | n + 1, s => wticks n (wtick s)

/-- The jobs enqueued by a trace, in submission order. -/
def enqList (evs : List WEv) : List Nat :=
  evs.filterMap (fun e => match e with | WEv.enq j => some j | _ => none)

/-! ## The text normalizer (`autocorrector.py`)

`autocorregir_mensaje` applies, for each entry of `SUSTITUCIONES` in
order, one `re.sub` with the pattern built by `_flexible_pattern_for`:
the token's characters in sequence with `\s*` allowed between them
(and around punctuation characters, with the final `\s*` stripped),
wrapped in `(?<!\w)` / `(?!\w)` boundaries, compiled with
`IGNORECASE | UNICODE`.  Word characters and whitespace are modelled at
ASCII granularity (`[A-Za-z0-9_]`, Python's six ASCII space characters),
which agrees with Python on every string considered here.  Since between
two required literal characters `\s*` can only consume whitespace — never
a required character — the regex match is equivalent to maximal-munch
whitespace skipping, and the match's end sits on the final literal, so
failure of the trailing `(?!\w)` cannot be repaired by backtracking:
"match then boundary check, else advance one position" is exactly
`re.sub`'s behaviour for these patterns.  Every token of `SUSTITUCIONES`
begins with a letter, so every compiled pattern begins with a literal. -/

/-- The `SUSTITUCIONES` dict, in insertion (= iteration) order. -/
def SUSTITUCIONES : List (String × String) :=
  [("xd", "X D"), ("wtf?", "watafac?"), ("wtf", "watafac"),
   ("omg", "o-em-ge"), ("porno", "nopor"),
   ("hitler", "señor del bigote")]

/-- Python `\w` (ASCII range). -/
def isWordChar (c : Char) : Bool := c.isAlphanum || c = '_'

/-- Python `\s` (ASCII range). -/
def isPySpace (c : Char) : Bool :=
  c = ' ' || c = '\t' || c = '\n' || c = '\r' || c = '\x0b' || c = '\x0c'

/-- One element of a compiled flexible pattern: a required literal
character (matched case-insensitively) or a `\s*`. -/
inductive PatItem
  | lit (c : Char)
  | ws
deriving Repr, DecidableEq

/-- Per-character expansion inside `_flexible_pattern_for`: a word
character becomes `escape(ch) + \s*`, a punctuation character becomes
`\s* + escape(ch) + \s*`. -/
def flexChar (c : Char) : List PatItem :=
  if isWordChar c then [PatItem.lit c, PatItem.ws]
  else [PatItem.ws, PatItem.lit c, PatItem.ws]

/-- Transcribes `re.sub(r"\s\*\Z", "", inner)` — drop the one trailing `\s*`. -/
def dropTrailingWs : List PatItem → List PatItem
  | [] => []
  | [PatItem.ws] => []
  | x :: rest => x :: dropTrailingWs rest

/-- Transcribes `_flexible_pattern_for` (autocorrector.py:13-42), as the element list
between the two boundary assertions.  `token.strip()` plus the `continue`
on internal whitespace together discard every whitespace character of the
token. -/
def flexItems (token : List Char) : List PatItem :=
  dropTrailingWs (((token.filter (fun c => !isPySpace c)).map flexChar).flatten)

/-- Match the element list at the head of `cs`; `some rest` returns what
follows the match.  `\s*` between literals is maximal-munch (see above). -/
def matchItems : List PatItem → List Char → Option (List Char)
  | [], cs => some cs
  | PatItem.lit _ :: _, [] => none
  | PatItem.lit c :: ps, x :: xs =>
    if x.toLower = c.toLower then matchItems ps xs else none
  | PatItem.ws :: ps, cs => matchItems ps (cs.dropWhile isPySpace)

/-- The `(?<!\w)` lookbehind: the character before the match position
(`none` at the start of the string) must not be a word character. -/
def isWordOpt : Option Char → Bool
  | none => false
  | some c => isWordChar c

/-- The `(?!\w)` lookahead at the end of a match. -/
def headNotWord : List Char → Bool
  | [] => true
  | c :: _ => !isWordChar c

theorem dropWhile_length_le (p : Char → Bool) :
    ∀ cs : List Char, (List.dropWhile p cs).length ≤ cs.length := by
  intro cs
  induction cs with
  | nil => simp [List.dropWhile]
  | cons x xs ih =>
    by_cases hx : p x
    · simp only [List.dropWhile, hx]
      exact Nat.le_succ_of_le ih
    · simp [List.dropWhile, hx]

/-- Transcribes `regex.sub(reemplazo, resultado)` for a pattern whose first element is
the literal `c0` followed by `ps`: scan the string left to right; at a
position whose preceding character is not a word character, try the
pattern; if it matches and the lookahead holds, emit the replacement and
resume after the matched span (whose last character becomes the new
preceding character); otherwise keep the character and advance.  The
`fuel` argument only drives the structural recursion: every step consumes
at least one character, so with `fuel = cs.length` (as `runPattern`
passes) the fuel-exhausted branch is never reached. -/
def subst (c0 : Char) (ps : List PatItem) (repl : List Char) :
    Nat → Option Char → List Char → List Char
  | 0, _, cs => cs
  | _ + 1, _, [] => []
  | fuel + 1, prev, c :: rest =>
    if isWordOpt prev then c :: subst c0 ps repl fuel (some c) rest
    else if c.toLower = c0.toLower then
      match matchItems ps rest with
      | some rest' =>
        if headNotWord rest' then
          repl ++ subst c0 ps repl fuel
            (((c :: rest).take ((c :: rest).length - rest'.length)).getLast?)
            rest'
        else c :: subst c0 ps repl fuel (some c) rest
      | none => c :: subst c0 ps repl fuel (some c) rest
    else c :: subst c0 ps repl fuel (some c) rest

/-- One `re.sub` pass of `autocorregir_mensaje` for one
`SUSTITUCIONES` entry.  Every token in the table starts with a letter, so
its pattern starts with a literal; patterns of any other shape do not
occur and are left as the identity pass. -/
def runPattern (items : List PatItem) (repl s : List Char) : List Char :=
  match items with
  | PatItem.lit c0 :: ps => subst c0 ps repl s.length none s
  | _ => s

/-- Transcribes `autocorregir_mensaje` (autocorrector.py:44-53). -/
def autocorregir_mensaje (texto : String) : String :=
  String.mk (SUSTITUCIONES.foldl
    (fun res tr => runPattern (flexItems tr.1.data) tr.2.data res)
    texto.data)

/-- Whether the pattern headed by literal `c0` matches anywhere in the
string, boundaries included — same scan as `subst`, reporting a hit
instead of substituting. -/
def hasMatchFrom (c0 : Char) (ps : List PatItem) :
    Option Char → List Char → Bool
  | _, [] => false
  | prev, c :: rest =>
    if isWordOpt prev then hasMatchFrom c0 ps (some c) rest
    else if c.toLower = c0.toLower then
      match matchItems ps rest with
      | some rest' =>
        if headNotWord rest' then true
        else hasMatchFrom c0 ps (some c) rest
      | none => hasMatchFrom c0 ps (some c) rest
    else hasMatchFrom c0 ps (some c) rest

/-- Whether one rule's pattern matches anywhere in `s`. -/
def patMatches (items : List PatItem) (s : List Char) : Bool :=
  match items with
  | PatItem.lit c0 :: ps => hasMatchFrom c0 ps none s
  | _ => false

/-- Whether any rule of `SUSTITUCIONES` still matches somewhere in `s`. -/
def hasMatchableToken (s : String) : Bool :=
  SUSTITUCIONES.any (fun tr => patMatches (flexItems tr.1.data) s.data)

/-! ## The synthesizer adapter (`tts_handler.py`)

`TTSHandler.clean_text` is a pipeline of `re.sub` removals, a whitespace
collapse, a 500-character truncation and a final `strip()`.  Each regex of
the pipeline either deletes its match or keeps one captured group; all of
them are deterministic (greedy pieces are followed by characters they can
never consume, non-greedy `.*?` pieces are "up to the nearest closing
delimiter"), so each `re.sub` is a left-to-right scan replacing
non-overlapping leftmost matches. -/

/-- Left-to-right `re.sub` scan: at each position try the matcher, which
returns the text to emit for the match and the rest of the string after
it; on failure keep one character and move on.  The `fuel` argument only
drives the structural recursion: every matcher below consumes at least
one character per match (each pattern contains a required literal), so
with `fuel = cs.length` (as `runSub` passes) the fuel-exhausted branch is
never reached. -/
def scanReplace (f : List Char → Option (List Char × List Char)) :
    Nat → List Char → List Char
  | 0, cs => cs
  | _ + 1, [] => []
  | fuel + 1, c :: rest =>
    match f (c :: rest) with
    | some (out, rest') => out ++ scanReplace f fuel rest'
    | none => c :: scanReplace f fuel rest

/-- One full `re.sub` pass over `s`. -/
def runSub (f : List Char → Option (List Char × List Char))
    (s : List Char) : List Char :=
  scanReplace f s.length s

/-- Transcribes `\d+` followed by the rest of the pattern's scan: one digit then
maximal munch (the following required character is never a digit). -/
def digits1 : List Char → Option (List Char)
  | c :: rest => if c.isDigit then some (rest.dropWhile Char.isDigit) else none
  | [] => none

/-- Transcribes `re.sub(r'<@[!&]?\d+>', '', text)` — user mentions
(tts_handler.py:38). -/
def tryMention : List Char → Option (List Char × List Char)
  | '<' :: '@' :: rest =>
    let rest1 := match rest with
      | c :: r => if c = '!' || c = '&' then r else c :: r
      | [] => []
    match digits1 rest1 with
    | some ('>' :: r2) => some ([], r2)
    | _ => none
  | _ => none

/-- Transcribes `re.sub(r'<#\d+>', '', text)` — channel mentions (tts_handler.py:39). -/
def tryChannel : List Char → Option (List Char × List Char)
  | '<' :: '#' :: rest =>
    match digits1 rest with
    | some ('>' :: r2) => some ([], r2)
    | _ => none
  | _ => none

/-- Transcribes `re.sub(r'<:\w+:\d+>', '', text)` — custom emojis (tts_handler.py:40). -/
def tryEmoji : List Char → Option (List Char × List Char)
  | '<' :: ':' :: rest =>
    match rest with
    | c :: r =>
      if isWordChar c then
        match r.dropWhile isWordChar with
        | ':' :: r2 =>
          match digits1 r2 with
          | some ('>' :: r3) => some ([], r3)
          | _ => none
        | _ => none
      else none
    | [] => none
  | _ => none

/-- Scan for the nearest ```` ``` ```` (the non-greedy `.*?` with
`re.DOTALL` runs to the first closing fence); `some rest` is the text
after it. -/
def findFence : List Char → Option (List Char)
  | '`' :: '`' :: '`' :: rest => some rest
  | _ :: rest => findFence rest
  | [] => none

/-- Transcribes `re.sub(r'```.*?```', '', text, flags=re.DOTALL)` — code blocks
(tts_handler.py:41). -/
def tryCodeBlock : List Char → Option (List Char × List Char)
  | '`' :: '`' :: '`' :: rest => (findFence rest).map (fun r => ([], r))
  | _ => none

/-- Scan for the nearest `` ` `` without crossing a newline (`.` without
`re.DOTALL` does not match `\n`). -/
def findTick : List Char → Option (List Char)
  | '`' :: rest => some rest
  | '\n' :: _ => none
  | _ :: rest => findTick rest
  | [] => none

/-- Transcribes `re.sub(r'`.*?`', '', text)` — inline code (tts_handler.py:42). -/
def tryInlineCode : List Char → Option (List Char × List Char)
  | '`' :: rest => (findTick rest).map (fun r => ([], r))
  | _ => none

/-- Scan for the nearest two-character closing delimiter `d d`, without
crossing a newline, collecting the non-greedy captured group. -/
def findClose2 (d : Char) : List Char → Option (List Char × List Char)
  | c :: rest =>
    if c = d then
      match rest with
      | c2 :: r2 =>
        if c2 = d then some ([], r2)
        else if c = '\n' then none
        else (findClose2 d rest).map (fun p => (c :: p.1, p.2))
      | [] => none
    else if c = '\n' then none
    else (findClose2 d rest).map (fun p => (c :: p.1, p.2))
  | [] => none

/-- Transcribes `re.sub(r'\*\*(.*?)\*\*', r'\1', text)` — bold (tts_handler.py:43). -/
def tryBold : List Char → Option (List Char × List Char)
  | '*' :: '*' :: rest => findClose2 '*' rest
  | _ => none

/-- Scan for the nearest single-character closing delimiter, without
crossing a newline, collecting the captured group. -/
def findClose1 (d : Char) : List Char → Option (List Char × List Char)
  | c :: rest =>
    if c = d then some ([], rest)
    else if c = '\n' then none
    else (findClose1 d rest).map (fun p => (c :: p.1, p.2))
  | [] => none

/-- Transcribes `re.sub(r'\*(.*?)\*', r'\1', text)` — italics (tts_handler.py:44). -/
def tryItalic : List Char → Option (List Char × List Char)
  | '*' :: rest => findClose1 '*' rest
  | _ => none

/-- Transcribes `re.sub(r'~~(.*?)~~', r'\1', text)` — strikethrough
(tts_handler.py:45). -/
def tryStrike : List Char → Option (List Char × List Char)
  | '~' :: '~' :: rest => findClose2 '~' rest
  | _ => none

/-- Transcribes `re.sub(r'__(.*?)__', r'\1', text)` — underline (tts_handler.py:46). -/
def tryUnderline : List Char → Option (List Char × List Char)
  | '_' :: '_' :: rest => findClose2 '_' rest
  | _ => none

/-- One character of the URL body: the source alternation
`[a-zA-Z]|[0-9]|[$-_@.&+]|[!*\(\),]|%[0-9a-fA-F]{2}` — note `[$-_@.&+]`
is the character RANGE `$`..`_` (0x24–0x5F) plus redundant literals, which
also absorbs `%xx` since `%` is in the range. -/
def urlChar (c : Char) : Bool :=
  c.isAlpha || c.isDigit || (0x24 ≤ c.toNat && c.toNat ≤ 0x5F) ||
    (c = '!' || c = '*' || c = '\\' || c = '(' || c = ')' || c = ',')

/-- Transcribes `re.sub(r'http[s]?://(...)+', '', text)` — bare URLs
(tts_handler.py:49). -/
def tryUrl : List Char → Option (List Char × List Char)
  | 'h' :: 't' :: 't' :: 'p' :: rest =>
    let rest1 := match rest with
      | 's' :: r => r
      | r => r
    match rest1 with
    | ':' :: '/' :: '/' :: r2 =>
      match r2 with
      | c :: r3 =>
        if urlChar c then some ([], r3.dropWhile urlChar) else none
      | [] => none
    | _ => none
  | _ => none

/-- Python `str.split()`: maximal runs of non-whitespace.  The `fuel`
argument only drives the structural recursion: every emitted word consumes
at least one character, so with `fuel = s.length` (as `collapseWs`
passes) the fuel-exhausted branch is never reached. -/
def pySplit : Nat → List Char → List (List Char)
  | 0, _ => []
  | fuel + 1, s =>
    match s.dropWhile isPySpace with
    | [] => []
    | c :: rest =>
      (c :: rest.takeWhile (fun x => !isPySpace x)) ::
        pySplit fuel (rest.dropWhile (fun x => !isPySpace x))

/-- Transcribes `' '.join(text.split())` (tts_handler.py:52). -/
def collapseWs (s : List Char) : List Char :=
  List.intercalate [' '] (pySplit s.length s)

/-- Transcribes `text[:500] + "..."` when `len(text) > 500` (tts_handler.py:55-56). -/
def truncate500 (s : List Char) : List Char :=
  if 500 < s.length then s.take 500 ++ ['.', '.', '.'] else s

/-- Python `str.strip()`. -/
def pyStrip (s : List Char) : List Char :=
  ((s.dropWhile isPySpace).reverse.dropWhile isPySpace).reverse

/-- The sanitisation part of `clean_text`: the ten `re.sub` passes in
source order followed by the whitespace collapse (tts_handler.py:37-52). -/
def sanitize (s : List Char) : List Char :=
  collapseWs (runSub tryUrl (runSub tryUnderline (runSub tryStrike
    (runSub tryItalic (runSub tryBold (runSub tryInlineCode
      (runSub tryCodeBlock (runSub tryEmoji (runSub tryChannel
        (runSub tryMention s))))))))))

/-- Transcribes `TTSHandler.clean_text` (tts_handler.py:35-58). -/
def clean_text (text : String) : String :=
  String.mk (pyStrip (truncate500 (sanitize text.data)))

/-- One chunk of `communicate.stream()`: an audio chunk carrying bytes, or
any other chunk type. -/
inductive TTSChunk
  | audio (data : List Nat)
  | other
deriving Repr, DecidableEq

/-- Outcome of the `edge_tts` provider call: the streamed chunks, or any
exception/timeout (caught by the bare `except` in `generate_tts`). -/
inductive ProviderResult
  | ok (chunks : List TTSChunk)
  | err
deriving Repr, DecidableEq

/-- Transcribes `audio_data = b""; for chunk in stream: if type == "audio": += data`
(tts_handler.py:81-84). -/
def audioData (chunks : List TTSChunk) : List Nat :=
  chunks.foldl
    (fun acc c => match c with
      | TTSChunk.audio d => acc ++ d
      | TTSChunk.other => acc) []

/-- Transcribes `TTSHandler.generate_tts` (tts_handler.py:60-95), with the external
provider (`edge_tts.Communicate(...).stream()`) as an oracle from the
cleaned text to its streamed chunks. -/
def generate_tts (provider : String → ProviderResult) (text : String) :
    Option (List Nat) :=
  let ct := clean_text text
  if ct = "" then none
  else
    match provider ct with
    | ProviderResult.err => none
    | ProviderResult.ok chunks =>
      if audioData chunks = [] then none else some (audioData chunks)

/-- A provider oracle that always streams two audio chunks around a
non-audio chunk. -/
def okProvider : String → ProviderResult :=
  fun _ => ProviderResult.ok
    [TTSChunk.audio [1, 2], TTSChunk.other, TTSChunk.audio [3]]

/-- A 600-character input for the truncation scenario. -/
def longText : String := String.mk (List.replicate 600 'a')

/-- A sample registry state: connected to channel 1, one queued job, one
alive worker, text channel 9 bound. -/
def sampleRoomA : RoomA :=
  { conn := some 1, queue := some [5], playingFlag := some false,
    workers := 1, boundText := some 9 }

/-- A sample worker state: two queued jobs, connection down. -/
def stuckWS : WS :=
  { conn := false, queuePresent := true, queue := [1, 2], played := [],
    phase := WPhase.waiting 0 }

/-! ## Theorems -/

theorem invA_step (s : RoomA) (op : OpA) (hop : op ≠ OpA.leave)
    (h : InvA s) : InvA (stepA s op) := by
  obtain ⟨h1, h2, h3⟩ := h
  cases op with
  | leave => exact absurd rfl hop
  | workerExit =>
    refine ⟨?_, ?_, ?_⟩ <;> simp only [stepA, workerExit]
    · omega
    · intro hq; have := h2 hq; omega
    · exact h3
  | bindText t =>
    exact ⟨h1, h2, h3⟩
  | join ch cOk mOk =>
    rcases hc : s.conn with _ | c
    · have hq : s.queue = none := h3 hc
      have hw : s.workers = 0 := h2 hq
      cases cOk
      · simpa [stepA, join_channel, hc] using ⟨h1, h2, h3⟩
      · simp [stepA, join_channel, hc, hq, hw, InvA]
    · by_cases hch : c = ch
      · simpa [stepA, join_channel, hc, hch] using ⟨h1, h2, h3⟩
      · cases mOk
        · simpa [stepA, join_channel, hc, hch] using ⟨h1, h2, h3⟩
        · simp [stepA, join_channel, hc, hch, InvA]
          exact ⟨h1, h2⟩
  | play ch job cOk mOk =>
    rcases hc : s.conn with _ | c
    · have hq : s.queue = none := h3 hc
      have hw : s.workers = 0 := h2 hq
      cases cOk
      · simpa [stepA, play_audio, hc] using ⟨h1, h2, h3⟩
      · simp [stepA, play_audio, hc, enqueue_job, hq, hw, InvA]
    · by_cases hch : c = ch
      · rcases hq : s.queue with _ | q
        · have hw : s.workers = 0 := h2 hq
          simp [stepA, play_audio, hc, hch, enqueue_job, hq, hw, InvA]
        · simp [stepA, play_audio, hc, hch, enqueue_job, hq, InvA]
          exact h1
      · cases mOk
        · simpa [stepA, play_audio, hc, hch] using ⟨h1, h2, h3⟩
        · rcases hq : s.queue with _ | q
          · have hw : s.workers = 0 := h2 hq
            simp [stepA, play_audio, hc, hch, enqueue_job, hq, hw, InvA]
          · simp [stepA, play_audio, hc, hch, enqueue_job, hq, InvA]
            exact h1

theorem invA_foldl (ops : List OpA) :
    ∀ s : RoomA, InvA s → (∀ o ∈ ops, o ≠ OpA.leave) →
      InvA (ops.foldl stepA s) := by
  induction ops with
  | nil => intro s h _; simpa using h
  | cons o rest ih =>
    intro s h hno
    simp only [List.foldl]
    exact ih _ (invA_step s o (hno o (by simp)) h)
      (fun o' ho' => hno o' (by simp [ho']))

/-- C1 counterexample: starting from a fresh guild, `join` spawns a worker
task; `leave` disconnects and deletes the queue entry but the worker task
is still alive (it is suspended inside its 300-unit `wait_for` and has not
yet observed the deleted entry); a second `join` then finds no connection
and no queue entry and spawns a second worker task — two alive workers for
the same room. -/
theorem c1_counterexample :
    (runA [OpA.join 1 true true]).workers = 1 ∧
    (runA [OpA.join 1 true true, OpA.leave]).workers = 1 ∧
    (runA [OpA.join 1 true true, OpA.leave, OpA.join 1 true true]).workers
      = 2 := by
  decide

/-- C1 amended: as long as `leave_channel` never runs, every sequence of
`join_channel` and `play_audio` calls (with worker exits interleaved)
keeps at most one worker task alive per room; a `leave` that deletes the
room's queue entry while the worker is still suspended allows the next
`join` to spawn a second concurrent worker. -/
theorem c1_single_worker_without_leave (ops : List OpA)
    (h : OpA.leave ∉ ops) : (runA ops).workers ≤ 1 := by
  have hinv : InvA (runA ops) := by
    unfold runA
    refine invA_foldl ops initRoomA (by decide) ?_
    intro o ho heq
    exact h (heq ▸ ho)
  exact hinv.1

theorem c1_single_worker_witness :
    OpA.leave ∉ [OpA.join 1 true true, OpA.play 1 7 true true,
      OpA.workerExit, OpA.play 1 8 true true] ∧
    (runA [OpA.join 1 true true, OpA.play 1 7 true true,
      OpA.workerExit, OpA.play 1 8 true true]).workers ≤ 1 :=
  ⟨by decide,
   c1_single_worker_without_leave
     [OpA.join 1 true true, OpA.play 1 7 true true,
      OpA.workerExit, OpA.play 1 8 true true] (by decide)⟩

/-- C5 counterexample: after a failed `join_channel` (so no voice client
is connected) the command layer still records the text-channel binding
(bot.py:258-260); `leave_channel` on this room takes the
not-connected branch, which skips the whole cleanup — the binding
survives, contradicting "in every case it clears the room's bound
text-channel association". -/
theorem c5_counterexample :
    (runA [OpA.join 1 false true, OpA.bindText 5]).conn = none ∧
    (leave_channel (runA [OpA.join 1 false true, OpA.bindText 5])).boundText
      = some 5 := by
  decide

/-- C5 amended: when a connected voice client exists, `leave_channel`
disconnects and clears the queue entry and the text-channel binding; when
none exists it returns normally (no error) as a complete no-op — in
particular the binding, if any, is left in place. -/
theorem c5_leave_behavior (s : RoomA) :
    (s.conn ≠ none →
      (leave_channel s).conn = none ∧ (leave_channel s).queue = none ∧
        (leave_channel s).boundText = none) ∧
    (s.conn = none → leave_channel s = s) := by
  constructor
  · intro hne
    rcases hc : s.conn with _ | c
    · exact absurd hc hne
    · rcases hq : s.queue with _ | q <;>
        simp [leave_channel, hc, hq]
  · intro hc
    simp [leave_channel, hc]

theorem c5_leave_witness :
    (sampleRoomA.conn ≠ none ∧
      (leave_channel sampleRoomA).conn = none ∧
      (leave_channel sampleRoomA).queue = none ∧
      (leave_channel sampleRoomA).boundText = none) ∧
    (initRoomA.conn = none ∧ leave_channel initRoomA = initRoomA) :=
  ⟨⟨by decide, (c5_leave_behavior sampleRoomA).1 (by decide)⟩,
   ⟨by decide, (c5_leave_behavior initRoomA).2 (by decide)⟩⟩

/-- C6 confirmed: `join_channel` on the already-connected channel returns
the existing voice client and changes nothing (no new connection, no
error); on a different channel of a connected room it moves the
connection, changing only the `conn` field — queue, playing flag, worker
count and binding are untouched. -/
theorem c6_join_idempotent_and_move (s : RoomA) (ch c : Nat)
    (cOk mOk : Bool) :
    (s.conn = some ch → join_channel ch cOk mOk s = (s, some ())) ∧
    (s.conn = some c → c ≠ ch →
      join_channel ch cOk true s = ({ s with conn := some ch }, some ())) := by
  constructor
  · intro h
    simp [join_channel, h]
  · intro h hne
    simp [join_channel, h, hne]

theorem c6_join_witness :
    join_channel 1 false false sampleRoomA = (sampleRoomA, some ()) ∧
    join_channel 2 false true sampleRoomA
      = ({ sampleRoomA with conn := some 2 }, some ()) :=
  ⟨(c6_join_idempotent_and_move sampleRoomA 1 1 false false).1 (by decide),
   (c6_join_idempotent_and_move sampleRoomA 2 1 false true).2 (by decide)
     (by decide)⟩

/-- C10 confirmed: `play_audio` first establishes/moves the connection and
only then touches the queue; when it returns `True` the room is connected
to the job's channel and the job sits at the back of the queue; when it
returns `False` (a connect/move failure was caught) the state — in
particular the queue — is exactly as before. -/
theorem c10_enqueue_connection_frame (s : RoomA) (ch job : Nat)
    (cOk mOk : Bool) :
    ((play_audio ch job cOk mOk s).2 = true →
      (play_audio ch job cOk mOk s).1.conn = some ch ∧
      (play_audio ch job cOk mOk s).1.queue
        = some (s.queue.getD [] ++ [job])) ∧
    ((play_audio ch job cOk mOk s).2 = false →
      (play_audio ch job cOk mOk s).1 = s) := by
  have henq : ∀ s' : RoomA, (enqueue_job job s').conn = s'.conn ∧
      (enqueue_job job s').queue = some (s'.queue.getD [] ++ [job]) := by
    intro s'
    rcases hq : s'.queue with _ | q <;> simp [enqueue_job, hq]
  constructor
  · intro htrue
    rcases hc : s.conn with _ | c
    · cases cOk
      · simp [play_audio, hc] at htrue
      · have := henq { s with conn := some ch }
        simpa [play_audio, hc] using this
    · by_cases hch : c = ch
      · subst hch
        have := henq s
        simpa [play_audio, hc] using ⟨this.1.trans hc, this.2⟩
      · cases mOk
        · simp [play_audio, hc, hch] at htrue
        · have := henq { s with conn := some ch }
          simpa [play_audio, hc, hch] using this
  · intro hfalse
    rcases hc : s.conn with _ | c
    · cases cOk
      · simp [play_audio, hc]
      · simp [play_audio, hc] at hfalse
    · by_cases hch : c = ch
      · simp [play_audio, hc, hch] at hfalse
      · cases mOk
        · simp [play_audio, hc, hch]
        · simp [play_audio, hc, hch] at hfalse

theorem wtick_fifo (s : WS) (h : s.conn = true) :
    (wtick s).played ++ (wtick s).queue = s.played ++ s.queue ∧
      (wtick s).conn = true := by
  cases hp : s.phase with
  | exited => simp [wtick, hp, h]
  | waiting t =>
    rcases hq : s.queue with _ | ⟨j, rest⟩
    · simp only [wtick, hp, hq]
      split_ifs <;> simp [hq, h]
    · simp [wtick, hp, hq, h]
  | grace t =>
    simp only [wtick, hp]
    split_ifs <;> simp [h]
  | backoff t =>
    simp only [wtick, hp]
    split_ifs <;> simp [h]

theorem runB_fifo :
    ∀ (evs : List WEv) (s : WS), s.conn = true →
      (∀ e ∈ evs, e ≠ WEv.setConn false) →
      (runB evs s).played ++ (runB evs s).queue
        = (s.played ++ s.queue) ++ enqList evs ∧ (runB evs s).conn = true := by
  intro evs
  induction evs with
  | nil =>
    intro s h _
    simp [runB, enqList, h]
  | cons e rest ih =>
    intro s h hno
    have hrest : ∀ e' ∈ rest, e' ≠ WEv.setConn false :=
      fun e' he' => hno e' (List.mem_cons_of_mem _ he')
    cases e with
    | tick =>
      have hw := wtick_fifo s h
      have hmain := ih (wtick s) hw.2 hrest
      have hrun : runB (WEv.tick :: rest) s = runB rest (wtick s) := rfl
      rw [hrun]
      refine ⟨?_, hmain.2⟩
      rw [hmain.1, hw.1]
      simp [enqList]
    | enq j =>
      have hmain := ih { s with queue := s.queue ++ [j] } h hrest
      have hrun : runB (WEv.enq j :: rest) s
          = runB rest { s with queue := s.queue ++ [j] } := rfl
      rw [hrun]
      refine ⟨?_, hmain.2⟩
      rw [hmain.1]
      simp [enqList]
    | setConn b =>
      cases b with
      | false => exact absurd rfl (hno (WEv.setConn false) (by simp))
      | true =>
        have hmain := ih { s with conn := true } rfl hrest
        have hrun : runB (WEv.setConn true :: rest) s
            = runB rest { s with conn := true } := rfl
        rw [hrun]
        refine ⟨?_, hmain.2⟩
        rw [hmain.1]
        simp [enqList]

/-- C2 counterexample: jobs 1 and 2 enqueued in that order; the first
dequeue happens while the voice client is disconnected, so job 1 is `put`
back at the BACK of the queue (behind job 2); after the connection
returns, playback order is 2 then 1 — not the submission order. -/
theorem c2_counterexample :
    enqList [WEv.setConn false, WEv.enq 1, WEv.enq 2, WEv.tick,
      WEv.setConn true, WEv.tick, WEv.tick, WEv.tick, WEv.tick, WEv.tick]
      = [1, 2] ∧
    (runB [WEv.setConn false, WEv.enq 1, WEv.enq 2, WEv.tick,
      WEv.setConn true, WEv.tick, WEv.tick, WEv.tick, WEv.tick, WEv.tick]
      initWS).played = [2, 1] := by
  decide

/-- C2 amended: as long as the voice connection never drops, playback is
strict FIFO: at every point the jobs already handed to playback followed
by the jobs still queued are exactly the enqueued jobs in submission
order (playback itself is sequential — the worker awaits each job).  A
disconnection observed at a dequeue re-queues the in-hand job at the back
of the queue, which can reorder it behind later submissions. -/
theorem c2_fifo_when_connected (evs : List WEv)
    (h : ∀ e ∈ evs, e ≠ WEv.setConn false) :
    (runB evs initWS).played ++ (runB evs initWS).queue = enqList evs := by
  have hmain := runB_fifo evs initWS rfl h
  simpa [initWS] using hmain.1

theorem c2_fifo_witness :
    (∀ e ∈ [WEv.enq 1, WEv.enq 2, WEv.tick, WEv.tick, WEv.enq 3],
      e ≠ WEv.setConn false) ∧
    (runB [WEv.enq 1, WEv.enq 2, WEv.tick, WEv.tick, WEv.enq 3]
        initWS).played
      ++ (runB [WEv.enq 1, WEv.enq 2, WEv.tick, WEv.tick, WEv.enq 3]
        initWS).queue
      = enqList [WEv.enq 1, WEv.enq 2, WEv.tick, WEv.tick, WEv.enq 3] :=
  ⟨by decide,
   c2_fifo_when_connected [WEv.enq 1, WEv.enq 2, WEv.tick, WEv.tick,
     WEv.enq 3] (by decide)⟩

/-- C4 counterexample: with jobs 1 and 2 queued in that order and the
connection down, the worker dequeues job 1 and `put`s it back at the BACK:
the queue becomes `[2, 1]`, so job 1 is no longer the next job to play —
the claim's "front-equivalent position" does not hold. -/
theorem c4_counterexample :
    (runB [WEv.setConn false, WEv.enq 1, WEv.enq 2] initWS).queue
      = [1, 2] ∧
    (runB [WEv.setConn false, WEv.enq 1, WEv.enq 2, WEv.tick]
      initWS).queue = [2, 1] := by
  decide

/-- C4 amended: when a job is dequeued while the connection is absent or
dropped, the worker pushes it back at the TAIL of the queue (it becomes
the last queued job, not the next one) and retries after a 2-time-unit
backoff; the job is never dropped. -/
theorem c4_requeue_tail_and_backoff (s : WS) (j : Nat) (rest : List Nat)
    (t : Nat) (hq : s.queue = j :: rest) (hc : s.conn = false)
    (hp : s.phase = WPhase.waiting t) (hqp : s.queuePresent = true) :
    wtick s = { s with queue := rest ++ [j], phase := WPhase.backoff 0 } ∧
    RETRY_BACKOFF = 2 ∧
    (wticks (1 + RETRY_BACKOFF + 1) s).phase = WPhase.waiting 0 ∧
    (wticks (1 + RETRY_BACKOFF + 1) s).queue = rest ++ [j] ∧
    (wticks (1 + RETRY_BACKOFF + 1) s).played = s.played := by
  have h1 : wtick s = { s with queue := rest ++ [j], phase := WPhase.backoff 0 } := by
    simp [wtick, hp, hq, hc]
  have h4 : wticks (1 + RETRY_BACKOFF + 1) s
      = { s with queue := rest ++ [j], phase := WPhase.waiting 0 } := by
    have hstep : wticks (1 + RETRY_BACKOFF + 1) s = wticks 3 (wtick s) := rfl
    rw [hstep, h1]
    simp [wticks, wtick, RETRY_BACKOFF, hqp]
  exact ⟨h1, rfl, by rw [h4], by rw [h4], by rw [h4]⟩

theorem c4_requeue_witness :
    wtick stuckWS = { stuckWS with queue := [2] ++ [1], phase := WPhase.backoff 0 } ∧
    RETRY_BACKOFF = 2 ∧
    (wticks (1 + RETRY_BACKOFF + 1) stuckWS).phase = WPhase.waiting 0 ∧
    (wticks (1 + RETRY_BACKOFF + 1) stuckWS).queue = [2] ++ [1] ∧
    (wticks (1 + RETRY_BACKOFF + 1) stuckWS).played = stuckWS.played :=
  c4_requeue_tail_and_backoff stuckWS 1 [2] 0 rfl rfl rfl rfl

/-- C3 counterexample: after the worker's idle-timeout exit (modelled by
`workerExit`; `c3_idle_exit_behavior` shows the exit leaves the queue
entry registered), a successful `play_audio` puts the job in the queue
but spawns NO new worker — `play_audio` only spawns one when the guild
has no `audio_queue` entry at all, and the idle exit never removes it. -/
theorem c3_counterexample :
    (runA [OpA.join 1 true true, OpA.workerExit]).queue = some [] ∧
    (runA [OpA.join 1 true true, OpA.workerExit,
      OpA.play 1 7 true true]).workers = 0 ∧
    (runA [OpA.join 1 true true, OpA.workerExit,
      OpA.play 1 7 true true]).queue = some [7] := by
  decide

set_option maxRecDepth 10000 in
/-- C3 amended: the worker waits for a job with a 300-time-unit idle
timeout, then grants one 10-time-unit grace period and, if the queue is
still empty, exits — exactly at 300+10 plus the two checks, not earlier —
WITHOUT deregistering the room's queue entry; consequently a subsequent
enqueue for the room does NOT spawn a new worker (`play_audio` keeps the
worker count unchanged whenever the queue entry exists). -/
theorem c3_idle_exit_behavior :
    IDLE_TIMEOUT = 300 ∧ GRACE_SLEEP = 10 ∧
    (wticks (IDLE_TIMEOUT + GRACE_SLEEP + 1) initWS).phase
      ≠ WPhase.exited ∧
    wticks (IDLE_TIMEOUT + 1 + GRACE_SLEEP + 1) initWS
      = { initWS with phase := WPhase.exited } ∧
    (∀ (s : RoomA) (ch job : Nat) (cOk mOk : Bool), s.queue.isSome →
      (play_audio ch job cOk mOk s).1.workers = s.workers) := by
  refine ⟨rfl, rfl, by decide, by decide, ?_⟩
  intro s ch job cOk mOk hq
  rcases hq' : s.queue with _ | q
  · rw [hq'] at hq
    simp at hq
  · rcases hc : s.conn with _ | c
    · cases cOk
      · simp [play_audio, hc]
      · simp [play_audio, hc, enqueue_job, hq']
    · by_cases hch : c = ch
      · simp [play_audio, hc, hch, enqueue_job, hq']
      · cases mOk
        · simp [play_audio, hc, hch]
        · simp [play_audio, hc, hch, enqueue_job, hq']

theorem c3_idle_exit_witness :
    sampleRoomA.queue.isSome ∧
    (play_audio 1 7 true true sampleRoomA).1.workers
      = sampleRoomA.workers :=
  ⟨by decide,
   c3_idle_exit_behavior.2.2.2.2 sampleRoomA 1 7 true true (by decide)⟩

theorem subst_of_no_match (c0 : Char) (ps : List PatItem)
    (repl : List Char) :
    ∀ (fuel : Nat) (cs : List Char) (prev : Option Char),
      hasMatchFrom c0 ps prev cs = false →
      subst c0 ps repl fuel prev cs = cs := by
  intro fuel
  induction fuel with
  | zero =>
    intro cs prev _
    rfl
  | succ fuel ih =>
    intro cs prev h
    cases cs with
    | nil => rfl
    | cons c rest =>
      simp only [subst, hasMatchFrom] at h ⊢
      by_cases hw : isWordOpt prev = true
      · rw [if_pos hw] at h ⊢
        rw [ih rest (some c) h]
      · rw [if_neg hw] at h ⊢
        by_cases hc0 : c.toLower = c0.toLower
        · rw [if_pos hc0] at h ⊢
          rcases hm : matchItems ps rest with _ | rest'
          · simp only [hm] at h ⊢
            rw [ih rest (some c) h]
          · simp only [hm] at h ⊢
            by_cases hnw : headNotWord rest' = true
            · rw [if_pos hnw] at h
              cases h
            · rw [if_neg hnw] at h ⊢
              rw [ih rest (some c) h]
        · rw [if_neg hc0] at h ⊢
          rw [ih rest (some c) h]

theorem runPattern_of_no_match (items : List PatItem) (repl s : List Char)
    (h : patMatches items s = false) : runPattern items repl s = s := by
  cases items with
  | nil => rfl
  | cons p ps =>
    cases p with
    | lit c0 =>
      exact subst_of_no_match c0 ps repl s.length s none
        (by simpa [patMatches] using h)
    | ws => rfl

theorem autocorregir_of_no_match (s : String)
    (h : hasMatchableToken s = false) : autocorregir_mensaje s = s := by
  simp only [hasMatchableToken, SUSTITUCIONES, List.any, Bool.or_eq_false_iff]
    at h
  obtain ⟨h1, h2, h3, h4, h5, h6, -⟩ := h
  obtain ⟨data⟩ := s
  simp only [autocorregir_mensaje, SUSTITUCIONES, List.foldl]
  rw [runPattern_of_no_match _ _ _ h1, runPattern_of_no_match _ _ _ h2,
    runPattern_of_no_match _ _ _ h3, runPattern_of_no_match _ _ _ h4,
    runPattern_of_no_match _ _ _ h5, runPattern_of_no_match _ _ _ h6]

/-- C7 confirmed: the normalizer is a pure total function (it is a Lean
function by construction): it maps the empty string to itself, expands
"XD" to the speakable "X D" prescribed by `SUSTITUCIONES`, and is stable
on any output in which no substitution token is matchable any more. -/
theorem c7_normalizer_pure_total :
    autocorregir_mensaje "" = "" ∧
    autocorregir_mensaje "XD" = "X D" ∧
    (∀ s : String, hasMatchableToken (autocorregir_mensaje s) = false →
      autocorregir_mensaje (autocorregir_mensaje s)
        = autocorregir_mensaje s) := by
  refine ⟨by decide, by decide, ?_⟩
  intro s h
  exact autocorregir_of_no_match _ h

theorem c7_normalizer_witness :
    hasMatchableToken (autocorregir_mensaje "hola") = false ∧
    autocorregir_mensaje (autocorregir_mensaje "hola")
      = autocorregir_mensaje "hola" :=
  ⟨by decide, c7_normalizer_pure_total.2.2 "hola" (by decide)⟩

theorem pyStrip_length_le (s : List Char) :
    (pyStrip s).length ≤ s.length := by
  unfold pyStrip
  rw [List.length_reverse]
  refine le_trans (dropWhile_length_le _ _) ?_
  rw [List.length_reverse]
  exact dropWhile_length_le _ _

/-- C8 confirmed: `clean_text` never returns more than 500 characters
plus the 3-character ellipsis marker, and whenever the sanitised text
exceeds 500 characters the result is exactly its first 500 characters
followed by `"..."` (then stripped). -/
theorem c8_truncation (text : String) :
    (clean_text text).length ≤ 500 + 3 ∧
    (500 < (sanitize text.data).length →
      clean_text text
        = String.mk (pyStrip ((sanitize text.data).take 500
            ++ ['.', '.', '.']))) := by
  constructor
  · have htr : (truncate500 (sanitize text.data)).length ≤ 503 := by
      unfold truncate500
      split_ifs with h
      · rw [List.length_append, List.length_take]
        simp
      · omega
    have hlen : (clean_text text).length
        = (pyStrip (truncate500 (sanitize text.data))).length := rfl
    rw [hlen]
    exact le_trans (pyStrip_length_le _) htr
  · intro h
    unfold clean_text truncate500
    rw [if_pos h]

set_option maxRecDepth 100000 in
theorem c8_truncation_witness :
    500 < (sanitize longText.data).length ∧
    clean_text longText
      = String.mk (pyStrip ((sanitize longText.data).take 500
          ++ ['.', '.', '.'])) ∧
    (clean_text longText).length ≤ 500 + 3 :=
  ⟨by decide, (c8_truncation longText).2 (by decide),
    (c8_truncation longText).1⟩

/-- C9 confirmed: `generate_tts` returns `None` exactly when the cleaned
text is empty, the provider call raises (error/timeout), or the streamed
audio chunks concatenate to nothing; in every other case it returns the
concatenated raw audio bytes of the provider's stream. -/
theorem c9_generate_tts_cases (provider : String → ProviderResult)
    (text : String) :
    (clean_text text = "" → generate_tts provider text = none) ∧
    (provider (clean_text text) = ProviderResult.err →
      generate_tts provider text = none) ∧
    (∀ chunks, provider (clean_text text) = ProviderResult.ok chunks →
      (audioData chunks = [] → generate_tts provider text = none) ∧
      (clean_text text ≠ "" → audioData chunks ≠ [] →
        generate_tts provider text = some (audioData chunks))) := by
  refine ⟨?_, ?_, ?_⟩
  · intro h
    simp [generate_tts, h]
  · intro h
    by_cases hct : clean_text text = "" <;> simp [generate_tts, hct, h]
  · intro chunks h
    constructor
    · intro hdata
      by_cases hct : clean_text text = "" <;>
        simp [generate_tts, hct, h, hdata]
    · intro hct hdata
      simp [generate_tts, hct, h, hdata]

theorem c9_generate_tts_witness :
    clean_text "hola" ≠ "" ∧
    audioData [TTSChunk.audio [1, 2], TTSChunk.other, TTSChunk.audio [3]]
      ≠ [] ∧
    generate_tts okProvider "hola"
      = some (audioData
          [TTSChunk.audio [1, 2], TTSChunk.other, TTSChunk.audio [3]]) :=
  ⟨by decide, by decide,
   ((c9_generate_tts_cases okProvider "hola").2.2 _ rfl).2 (by decide)
     (by decide)⟩

theorem c10_enqueue_witness :
    ((play_audio 1 7 false false sampleRoomA).2 = true ∧
      (play_audio 1 7 false false sampleRoomA).1.conn = some 1 ∧
      (play_audio 1 7 false false sampleRoomA).1.queue = some [5, 7]) ∧
    ((play_audio 2 7 false false sampleRoomA).2 = false ∧
      (play_audio 2 7 false false sampleRoomA).1 = sampleRoomA) :=
  ⟨⟨by decide,
    by
      have := (c10_enqueue_connection_frame sampleRoomA 1 7 false false).1
        (by decide)
      simpa using this⟩,
   ⟨by decide,
    (c10_enqueue_connection_frame sampleRoomA 2 7 false false).2
      (by decide)⟩⟩

end TTS
